import Mathlib

/-!
Shallow embedding of the authentication subsystem of the AAKAR-3D backend
(`src/backend/server.js`): user schema, signup/login/profile route handlers,
JWT issuance, and the `authenticateToken` middleware, together with proofs
about the behaviour of the embedded code.

Modelling conventions:
* Machine state is the list of stored user records, in insertion order
  (`findOne` returns the first match, as MongoDB natural order does).
* Mongoose string-schema setters (`trim`, `lowercase`) are applied both when
  a document is constructed and when a query filter value is cast
  (Mongoose 6+ runs setters on query filters by default).
* bcrypt is modelled as a tagged, salted-format string transform: the hash of
  `p` with cost `c` is the string `"$2b$" ++ c ++ "$" ++ p`; `compare`
  re-hashes the candidate and compares, which is exactly bcrypt's observable
  semantics for hashes produced by this server (fixed salt model).
* A JWT is modelled as a structure carrying the claims, `iat`, `exp` and the
  signing secret, serialized by an executable, injective-on-format codec into
  a space-free string (real JWTs are base64url and never contain spaces).
  `jwt.verify` decodes, checks the secret and checks `now < exp`.
* Time is a natural number of seconds (the unit `jsonwebtoken` uses).
-/

/-- JSON scalar values appearing in response bodies. -/
inductive JVal where
  | str (s : String)
  | num (n : Nat)
deriving DecidableEq, Repr

/-- A stored user document, per `userSchema` in `server.js`:
`fullName` (trim), `username` (unique, trim, lowercase), `email` (unique,
trim, lowercase), `password` (the bcrypt hash), plus the generated `_id`
and the `timestamps`-generated `createdAt`. -/
structure UserRecord where
  id : Nat
  fullName : String
  username : String
  email : String
  password : String
  createdAt : Nat
deriving DecidableEq, Repr

/-- The credential store: all user documents in insertion order. -/
abbrev Store := List UserRecord

/-- ASCII lowercasing of one character, the effect of JavaScript
`toLowerCase()` on the ASCII range. -/
def charLower (c : Char) : Char :=
  if 'A' ≤ c ∧ c ≤ 'Z' then Char.ofNat (c.toNat + 32) else c

/-- Model of `s.toLowerCase()` (and the mongoose `lowercase: true` setter). -/
def strLower (s : String) : String := ⟨s.data.map charLower⟩

/-- ASCII whitespace, as trimmed by `trim`. -/
def isWs (c : Char) : Bool := c = ' ' || c = '\t' || c = '\n' || c = '\r'

/-- Model of the mongoose `trim: true` setter (JavaScript `s.trim()`). -/
def strTrim (s : String) : String :=
  ⟨((s.data.dropWhile isWs).reverse.dropWhile isWs).reverse⟩

/-- The mongoose string setter chain for `username`/`email`
(`trim: true, lowercase: true`): trim then lowercase. -/
def fieldSetter (s : String) : String := strLower (strTrim s)

/-- Model of `bcrypt.hash(plain, cost)` with the salt fixed: the output is the
bcrypt-format string `$2b$<cost>$<digest>`. -/
def bcryptHash (cost : Nat) (plain : String) : String :=
  "$2b$" ++ toString cost ++ "$" ++ plain

/-- Model of `bcrypt.compare(plain, hash)` for hashes minted by this server
(cost 12): re-hash the candidate and compare. -/
def bcryptCompare (plain hash : String) : Bool :=
  hash == bcryptHash 12 plain

/-- The process-wide signing secret from `server.js`. -/
def jwtSecret : String := "aakar3d_secret_key_2025"

/-- The payload of a signed JWT: the claims passed to `jwt.sign`, the issued-at
and expiry timestamps added by the library, and the secret the signature
binds it to. -/
structure Token where
  userId : Nat
  username : String
  email : String
  iat : Nat
  exp : Nat
  secret : String
deriving DecidableEq, Repr

/-- The claims the middleware attaches to `req.user` on success. -/
structure Claims where
  userId : Nat
  username : String
  email : String
deriving DecidableEq, Repr

/-- Little-endian binary digits of `n` over `'0'`/`'1'`, with explicit fuel so
the definition is structural and kernel-reducible. -/
def binChars : Nat → Nat → List Char
  | 0, _ => []
  | _ + 1, 0 => []
  | f + 1, n + 1 =>
      (if (n + 1) % 2 = 1 then '1' else '0') :: binChars f ((n + 1) / 2)

/-- Binary encoding of a natural number (fuel `n` suffices for `n`). -/
def natEnc (n : Nat) : List Char := binChars n n

/-- Value of a little-endian binary digit string. -/
def charsVal : List Char → Nat
  | [] => 0
  | c :: cs => (if c = '1' then 1 else 0) + 2 * charsVal cs

/-- Split a character stream at the first `'.'`; the remainder follows it.
If there is no dot the whole stream is the first component. -/
def splitAtDot : List Char → List Char × List Char
  | [] => ([], [])
  | c :: cs =>
      if c = '.' then ([], cs)
      else
        let p := splitAtDot cs
        (c :: p.1, p.2)

/-- Serialize characters: each character's code point in binary followed by a
dot, appended before `rest`. -/
def encChars (cs : List Char) (rest : List Char) : List Char :=
  cs.foldr (fun c acc => natEnc c.toNat ++ '.' :: acc) rest

/-- Serialize a string field: its length in binary, a dot, then its
characters. -/
def encStr (s : String) (rest : List Char) : List Char :=
  natEnc s.length ++ '.' :: encChars s.data rest

/-- Read back `k` serialized characters, returning them and the remainder. -/
def decChars : Nat → List Char → List Char × List Char
  | 0, r => ([], r)
  | k + 1, r =>
      let p := splitAtDot r
      let q := decChars k p.2
      (Char.ofNat (charsVal p.1) :: q.1, q.2)

/-- Serialize a token: `userId . username-field email-field iat . exp .
secret-field`, producing a string over the alphabet `{'0','1','.'}`. -/
def encodeToken (t : Token) : String :=
  ⟨natEnc t.userId ++ '.' :: encStr t.username (encStr t.email
      (natEnc t.iat ++ '.' :: natEnc t.exp ++ '.' :: encStr t.secret []))⟩

/-- Deserialize a token string; `none` when trailing garbage remains. -/
def decodeToken (s : String) : Option Token :=
  let p1 := splitAtDot s.data
  let p2 := splitAtDot p1.2
  let un := decChars (charsVal p2.1) p2.2
  let p3 := splitAtDot un.2
  let em := decChars (charsVal p3.1) p3.2
  let p4 := splitAtDot em.2
  let p5 := splitAtDot p4.2
  let p6 := splitAtDot p5.2
  let sec := decChars (charsVal p6.1) p6.2
  if sec.2 = [] then
    some ⟨charsVal p1.1, ⟨un.1⟩, ⟨em.1⟩, charsVal p4.1, charsVal p5.1, ⟨sec.1⟩⟩
  else none

/-- `jwt.sign({userId, username, email}, JWT_SECRET, {expiresIn: '7d'})` at
time `now`: the library adds `iat = now` and `exp = now + 7 days`. -/
def signToken (userId : Nat) (username email : String) (now : Nat) : String :=
  encodeToken ⟨userId, username, email, now, now + 604800, jwtSecret⟩

/-- `jwt.verify(token, JWT_SECRET)` at time `now`: fails on malformed input,
on a signature minted with a different secret, and on an expired token
(`now ≥ exp`); otherwise returns the embedded claims. -/
def verifyToken (s : String) (now : Nat) : Option Claims :=
  match decodeToken s with
  | none => none
  | some t =>
      if t.secret = jwtSecret ∧ now < t.exp then
        some ⟨t.userId, t.username, t.email⟩
      else none

/-- An HTTP response from an auth route: either an error status with its
`{error}` body, or a success status with optional `message`, optional
`token`, and the `user` object as a key/value list. -/
inductive AuthResp where
  | err (status : Nat) (error : String)
  | ok (status : Nat) (message : Option String) (token : Option String)
      (user : List (String × JVal))
deriving DecidableEq, Repr

/-- Outcome of the `authenticateToken` middleware: an error response, or
proceed to the handler with `req.user` set to the verified claims. -/
inductive AuthOutcome where
  | err (status : Nat) (error : String)
  | proceed (user : Claims)
deriving DecidableEq, Repr

/-- JavaScript `header.split(' ')` on the character list: split at every
single space, keeping empty segments. -/
def splitChars : List Char → List (List Char)
  | [] => [[]]
  | c :: cs =>
      if c = ' ' then [] :: splitChars cs
      else
        match splitChars cs with
        | [] => [[c]]
        | g :: gs => (c :: g) :: gs

/-- `const token = authHeader && authHeader.split(' ')[1]`: the token is the
second space-separated segment of the Authorization header, when present. -/
def extractToken (authHeader : Option String) : Option String :=
  match authHeader with
  | none => none
  | some h => ((splitChars h.data).map String.mk).get? 1

/-- `authenticateToken(req, res, next)`: extract
`req.headers['authorization'].split(' ')[1]`; 401 when that is absent or
empty (JS falsiness), 403 when `jwt.verify` fails, otherwise proceed with
the claims attached. -/
def authenticateToken (authHeader : Option String) (now : Nat) : AuthOutcome :=
  match extractToken authHeader with
  | none => .err 401 "Access token required"
  | some t =>
      if t = "" then .err 401 "Access token required"
      else
        match verifyToken t now with
        | none => .err 403 "Invalid or expired token"
        | some u => .proceed u

/-- The request body of `POST /api/signup`; an absent field is the empty
string (both are JS-falsy and are rejected identically). -/
structure SignupReq where
  fullName : String
  username : String
  email : String
  password : String
deriving DecidableEq, Repr

/-- The `$or` filter of the signup existence lookup, with the query values
cast through the schema setters. -/
def signupFilter (req : SignupReq) (r : UserRecord) : Bool :=
  r.email == fieldSetter req.email || r.username == fieldSetter req.username

/-- The document constructed by `new User({...})` followed by `save()`:
schema setters applied to each path, password already hashed, `_id` and
`createdAt` generated. -/
def mkUserDoc (nextId now : Nat) (req : SignupReq) : UserRecord :=
  { id := nextId
    fullName := strTrim req.fullName
    username := fieldSetter req.username
    email := fieldSetter req.email
    password := bcryptHash 12 req.password
    createdAt := now }

/-- `POST /api/signup`: validation, duplicate lookup with early returns,
hash, save (the unique indexes on `username`/`email` make a conflicting
save throw, which the catch block turns into a 500), then token issuance
and the 201 response. Returns the response and the updated store. -/
def signup (store : Store) (nextId now : Nat) (req : SignupReq) :
    AuthResp × Store :=
  if req.fullName = "" ∨ req.username = "" ∨ req.email = "" ∨
      req.password = "" then
    (.err 400 "All fields are required", store)
  else if req.password.length < 6 then
    (.err 400 "Password must be at least 6 characters long", store)
  else
    let dup : Option AuthResp :=
      match store.find? (signupFilter req) with
      | some existingUser =>
          if existingUser.email = req.email then
            some (.err 400 "Email already registered")
          else if existingUser.username = req.username then
            some (.err 400 "Username already taken")
          else none
      | none => none
    match dup with
    | some resp => (resp, store)
    | none =>
        let newUser := mkUserDoc nextId now req
        if store.any (fun r =>
            r.username == newUser.username || r.email == newUser.email) then
          (.err 500 "Internal server error. Please try again.", store)
        else
          (.ok 201 (some "Account created successfully!")
            (some (signToken nextId newUser.username newUser.email now))
            [("id", .num newUser.id), ("fullName", .str newUser.fullName),
             ("username", .str newUser.username),
             ("email", .str newUser.email)],
           store ++ [newUser])

/-- The request body of `POST /api/login`. -/
structure LoginReq where
  emailOrUsername : String
  password : String
deriving DecidableEq, Repr

/-- The `$or` filter of the login lookup:
`emailOrUsername.toLowerCase()` cast through the schema setters. -/
def loginFilter (req : LoginReq) (r : UserRecord) : Bool :=
  r.email == fieldSetter (strLower req.emailOrUsername) ||
  r.username == fieldSetter (strLower req.emailOrUsername)

/-- `POST /api/login`: validation, lookup, `bcrypt.compare`, token issuance.
The store is never written. -/
def login (store : Store) (now : Nat) (req : LoginReq) : AuthResp :=
  if req.emailOrUsername = "" ∨ req.password = "" then
    .err 400 "Email/Username and password are required"
  else
    match store.find? (loginFilter req) with
    | none => .err 400 "Invalid credentials"
    | some user =>
        if bcryptCompare req.password user.password then
          .ok 200 (some "Login successful!")
            (some (signToken user.id user.username user.email now))
            [("id", .num user.id), ("fullName", .str user.fullName),
             ("username", .str user.username), ("email", .str user.email)]
        else .err 400 "Invalid credentials"

/-- The handler body of `GET /api/profile` once the middleware has attached
`req.user`: `findById`, 404 when absent, else the user view including
`createdAt`. -/
def getProfile (store : Store) (userId : Nat) : AuthResp :=
  match store.find? (fun r => r.id == userId) with
  | none => .err 404 "User not found"
  | some user =>
      .ok 200 none none
        [("id", .num user.id), ("fullName", .str user.fullName),
         ("username", .str user.username), ("email", .str user.email),
         ("createdAt", .num user.createdAt)]

/-- The full `GET /api/profile` route: middleware first, then the handler. -/
def profileRoute (store : Store) (authHeader : Option String) (now : Nat) :
    AuthResp :=
  match authenticateToken authHeader now with
  | .err s m => .err s m
  | .proceed u => getProfile store u.userId

/-- A store reachable by running a sequence of signup requests (each with its
generated id and clock reading) from a given initial store. -/
def runSignups : Store → List (Nat × Nat × SignupReq) → Store
  | s, [] => s
  | s, (nextId, now, req) :: rest => runSignups (signup s nextId now req).2 rest


/-- The stored-record shape invariant: every record is a setter-normalized
document (trimmed `fullName`, trimmed+lowercased `username`/`email`) whose
password field is the bcrypt hash of some plaintext and never the plaintext
itself. -/
def storeWF (s : Store) : Prop :=
  ∀ r ∈ s, ∃ fn un em pw idv t,
    r = { id := idv, fullName := strTrim fn, username := fieldSetter un,
          email := fieldSetter em, password := bcryptHash 12 pw,
          createdAt := t } ∧ r.password ≠ pw

/-- A concrete stored record (the spec's running example user), used to
instantiate theorems at concrete inputs. -/
def janeRecord : UserRecord :=
  ⟨1, "Jane Doe", "janedoe", "jane@x.com", bcryptHash 12 "secret1", 0⟩

/-! ### Codec lemmas -/

/-- Binary digit strings use only `'0'` and `'1'`. -/
theorem binChars_mem : ∀ (f n : Nat), ∀ c ∈ binChars f n, c = '0' ∨ c = '1'
  | 0, _ => by simp [binChars]
  | _ + 1, 0 => by simp [binChars]
  | f + 1, n + 1 => by
      intro c hc
      simp only [binChars, List.mem_cons] at hc
      rcases hc with h | h
      · split at h <;> simp [h]
      · exact binChars_mem f ((n + 1) / 2) c h

theorem natEnc_mem {n : Nat} {c : Char} (h : c ∈ natEnc n) :
    c = '0' ∨ c = '1' := binChars_mem n n c h

/-- With enough fuel, decoding a binary digit string returns the value. -/
theorem charsVal_binChars : ∀ (f n : Nat), n ≤ f → charsVal (binChars f n) = n
  | 0, 0, _ => by simp [binChars, charsVal]
  | 0, n + 1, h => by omega
  | f + 1, 0, _ => by simp [binChars, charsVal]
  | f + 1, n + 1, h => by
      have hrec : charsVal (binChars f ((n + 1) / 2)) = (n + 1) / 2 :=
        charsVal_binChars f ((n + 1) / 2) (by omega)
      simp only [binChars, charsVal, hrec]
      rcases Nat.mod_two_eq_zero_or_one (n + 1) with h2 | h2 <;> · simp [h2]; omega

@[simp] theorem charsVal_natEnc (n : Nat) : charsVal (natEnc n) = n :=
  charsVal_binChars n n (Nat.le_refl n)

/-- `splitAtDot` recovers a dot-free segment followed by a dot. -/
theorem splitAtDot_append {a : List Char} (r : List Char)
    (h : ∀ c ∈ a, c ≠ '.') : splitAtDot (a ++ '.' :: r) = (a, r) := by
  induction a with
  | nil => simp [splitAtDot]
  | cons c cs ih =>
      have hc : c ≠ '.' := h c (List.mem_cons_self c cs)
      have hcs : ∀ x ∈ cs, x ≠ '.' := fun x hx => h x (List.mem_cons_of_mem c hx)
      simp [splitAtDot, hc, ih hcs]

@[simp] theorem splitAtDot_natEnc (n : Nat) (r : List Char) :
    splitAtDot (natEnc n ++ '.' :: r) = (natEnc n, r) :=
  splitAtDot_append r (fun c hc => by rcases natEnc_mem hc with h | h <;> simp [h])

@[simp] theorem decChars_encChars :
    ∀ (cs r : List Char), decChars cs.length (encChars cs r) = (cs, r)
  | [], r => by simp [encChars, decChars]
  | c :: cs, r => by
      have step : encChars (c :: cs) r = natEnc c.toNat ++ '.' :: encChars cs r := rfl
      simp only [List.length_cons, step, decChars, splitAtDot_natEnc,
        charsVal_natEnc, decChars_encChars cs r, Char.ofNat_toNat]

@[simp] theorem decChars_encChars_str (s : String) (r : List Char) :
    decChars s.length (encChars s.data r) = (s.data, r) :=
  decChars_encChars s.data r

/-- The codec round-trips: `jwt.verify` sees exactly the claims `jwt.sign`
embedded. -/
theorem decodeToken_encodeToken (t : Token) :
    decodeToken (encodeToken t) = some t := by
  show decodeToken ⟨natEnc t.userId ++ '.' :: encStr t.username (encStr t.email
      (natEnc t.iat ++ '.' :: natEnc t.exp ++ '.' :: encStr t.secret []))⟩ = some t
  simp only [decodeToken, encStr, List.cons_append, List.append_assoc,
    splitAtDot_natEnc, charsVal_natEnc, decChars_encChars_str]
  rfl

/-- The serialized-token alphabet. -/
def tokAlpha (c : Char) : Prop := c = '0' ∨ c = '1' ∨ c = '.'

theorem encChars_alpha {r : List Char} (hr : ∀ c ∈ r, tokAlpha c)
    (cs : List Char) : ∀ c ∈ encChars cs r, tokAlpha c := by
  induction cs with
  | nil => exact hr
  | cons x xs ih =>
      intro c hc
      have step : encChars (x :: xs) r = natEnc x.toNat ++ '.' :: encChars xs r := rfl
      rw [step] at hc
      rcases List.mem_append.mp hc with h | h
      · rcases natEnc_mem h with h' | h' <;> simp [tokAlpha, h']
      · rcases List.mem_cons.mp h with h' | h'
        · simp [tokAlpha, h']
        · exact ih c h'

theorem encStr_alpha {r : List Char} (hr : ∀ c ∈ r, tokAlpha c)
    (s : String) : ∀ c ∈ encStr s r, tokAlpha c := by
  intro c hc
  rcases List.mem_append.mp hc with h | h
  · rcases natEnc_mem h with h' | h' <;> simp [tokAlpha, h']
  · rcases List.mem_cons.mp h with h' | h'
    · simp [tokAlpha, h']
    · exact encChars_alpha hr s.data c h'

/-- Appending preserves the alphabet. -/
theorem alpha_append {a b : List Char} (ha : ∀ c ∈ a, tokAlpha c)
    (hb : ∀ c ∈ b, tokAlpha c) : ∀ c ∈ a ++ b, tokAlpha c := by
  intro c hc
  rcases List.mem_append.mp hc with h | h
  · exact ha c h
  · exact hb c h

theorem alpha_dot_cons {b : List Char} (hb : ∀ c ∈ b, tokAlpha c) :
    ∀ c ∈ '.' :: b, tokAlpha c := by
  intro c hc
  rcases List.mem_cons.mp hc with h | h
  · simp [tokAlpha, h]
  · exact hb c h

theorem alpha_natEnc (n : Nat) : ∀ c ∈ natEnc n, tokAlpha c := by
  intro c hc
  rcases natEnc_mem hc with h | h <;> simp [tokAlpha, h]

/-- Every character of a serialized token is `'0'`, `'1'` or `'.'`. -/
theorem encodeToken_alpha (t : Token) :
    ∀ c ∈ (encodeToken t).data, tokAlpha c := by
  have inner : ∀ c ∈ natEnc t.iat ++ ('.' :: natEnc t.exp) ++
      ('.' :: encStr t.secret []), tokAlpha c :=
    alpha_append (alpha_append (alpha_natEnc _) (alpha_dot_cons (alpha_natEnc _)))
      (alpha_dot_cons (encStr_alpha (by simp) _))
  have inner' : ∀ c ∈ natEnc t.iat ++ '.' :: natEnc t.exp ++
      '.' :: encStr t.secret [], tokAlpha c := by
    intro c hc
    exact inner c (by simpa [List.append_assoc] using hc)
  exact alpha_append (alpha_natEnc _)
    (alpha_dot_cons (encStr_alpha (encStr_alpha inner' _) _))

/-- A serialized token never contains a space. -/
theorem encodeToken_no_space (t : Token) :
    ∀ c ∈ (encodeToken t).data, c ≠ ' ' := by
  intro c hc
  rcases encodeToken_alpha t c hc with h | h | h <;> simp [h]

/-- A serialized token is never the empty string. -/
theorem encodeToken_ne_empty (t : Token) : encodeToken t ≠ "" := by
  intro h
  have hd : (encodeToken t).data = [] := by rw [h]
  have : natEnc t.userId ++ '.' :: encStr t.username (encStr t.email
      (natEnc t.iat ++ '.' :: natEnc t.exp ++ '.' :: encStr t.secret [])) = [] := hd
  rcases natEnc t.userId with _ | ⟨x, xs⟩ <;> simp at this

/-! ### `split(' ')` lemmas -/

theorem splitChars_ne_nil : ∀ l : List Char, splitChars l ≠ []
  | [] => by simp [splitChars]
  | c :: cs => by
      simp only [splitChars]
      by_cases h : c = ' '
      · simp [h]
      · simp only [h, if_false]
        rcases hs : splitChars cs with _ | ⟨g, gs⟩ <;> simp

/-- A space-free header yields a single segment. -/
theorem splitChars_no_space : ∀ {l : List Char}, (∀ c ∈ l, c ≠ ' ') →
    splitChars l = [l]
  | [], _ => rfl
  | c :: cs, h => by
      have hc : c ≠ ' ' := h c (List.mem_cons_self c cs)
      have ih : splitChars cs = [cs] :=
        splitChars_no_space (fun x hx => h x (List.mem_cons_of_mem c hx))
      simp [splitChars, hc, ih]

/-- Splitting at the first space of a header whose first word is space-free. -/
theorem splitChars_word_append : ∀ {w : List Char}, (∀ c ∈ w, c ≠ ' ') →
    ∀ r : List Char, splitChars (w ++ ' ' :: r) = w :: splitChars r
  | [], _, r => by simp [splitChars]
  | c :: cs, h, r => by
      have hc : c ≠ ' ' := h c (List.mem_cons_self c cs)
      have ih := splitChars_word_append
        (fun x hx => h x (List.mem_cons_of_mem c hx)) r
      simp [splitChars, hc, ih, splitChars_ne_nil]

/-! ### bcrypt lemmas -/

/-- A bcrypt hash is never the plaintext it hashes. -/
theorem bcryptHash_ne_plain (cost : Nat) (p : String) : bcryptHash cost p ≠ p := by
  intro h
  have hl := congrArg String.length h
  simp only [bcryptHash, String.length_append,
    show ("$2b$" : String).length = 4 from rfl,
    show ("$" : String).length = 1 from rfl] at hl
  omega

/-- The modelled hash is injective at fixed cost, so comparing hashes is
comparing plaintexts. -/
theorem bcryptHash_inj {p q : String} (h : bcryptHash 12 p = bcryptHash 12 q) :
    p = q := by
  have hd := congrArg String.data h
  simp only [bcryptHash, String.data_append] at hd
  exact congrArg String.mk (List.append_cancel_left hd)

@[simp] theorem bcryptCompare_self (p : String) :
    bcryptCompare p (bcryptHash 12 p) = true := by
  simp [bcryptCompare]

theorem bcryptCompare_wrong {p q : String} (h : q ≠ p) :
    bcryptCompare q (bcryptHash 12 p) = false := by
  simp only [bcryptCompare, beq_eq_false_iff_ne, ne_eq]
  intro he
  exact h (bcryptHash_inj he).symm

/-! ### Store lookup lemmas -/

/-- `find?` returns the unique matching element when there is exactly one. -/
theorem find?_eq_some_of_unique {α : Type} {p : α → Bool} :
    ∀ {l : List α} {u : α}, u ∈ l → p u = true →
      (∀ v ∈ l, p v = true → v = u) → l.find? p = some u := by
  intro l
  induction l with
  | nil => intro u hu; simp at hu
  | cons x xs ih =>
      intro u hu hpu huniq
      by_cases hx : p x = true
      · have hxu : x = u := huniq x (List.mem_cons_self x xs) hx
        subst hxu
        simp [List.find?, hx]
      · have hux : u ≠ x := fun he => hx (he ▸ hpu)
        have hu' : u ∈ xs := by
          rcases List.mem_cons.mp hu with h | h
          · exact absurd h hux
          · exact h
        have := ih hu' hpu (fun v hv hpv => huniq v (List.mem_cons_of_mem x hv) hpv)
        simp [List.find?, hx, this]

/-! ### Middleware extraction lemmas -/

/-- With a space-free scheme word and a space-free token, `split(' ')[1]`
is exactly the token. -/
theorem extract_second_segment (w s : String) (hw : ∀ c ∈ w.data, c ≠ ' ')
    (hs : ∀ c ∈ s.data, c ≠ ' ') :
    ((splitChars (w ++ " " ++ s).data).map String.mk).get? 1 = some s := by
  have hdata : (w ++ " " ++ s).data = w.data ++ ' ' :: s.data := by
    simp [String.data_append]
  rw [hdata, splitChars_word_append hw, splitChars_no_space hs]
  rfl

/-- The middleware never inspects the scheme word: any space-free word in
front of a space-free token behaves exactly like `Bearer`. -/
theorem authenticateToken_scheme_irrelevant (w s : String) (now : Nat)
    (hw : ∀ c ∈ w.data, c ≠ ' ') (hs : ∀ c ∈ s.data, c ≠ ' ') :
    authenticateToken (some (w ++ " " ++ s)) now =
      authenticateToken (some ("Bearer " ++ s)) now := by
  have h1 := extract_second_segment w s hw hs
  have h2 := extract_second_segment "Bearer" s (by decide) hs
  have hB : ("Bearer" : String) ++ " " ++ s = "Bearer " ++ s := by
    apply congrArg String.mk
    simp [String.data_append]
  rw [hB] at h2
  simp only [authenticateToken, extractToken, h1, h2]

/-- A header with no space at all never yields a token: `split(' ')[1]` is
absent. -/
theorem authenticateToken_no_space (h : String) (now : Nat)
    (hh : ∀ c ∈ h.data, c ≠ ' ') :
    authenticateToken (some h) now = .err 401 "Access token required" := by
  simp only [authenticateToken, extractToken, splitChars_no_space hh]
  rfl

/-! ### Claim theorems -/

set_option maxRecDepth 40000

/-- C3: a signup request with any empty/missing field, or a password shorter
than 6, fails with a 400 validation error; the store is unchanged (no record
created) and the response is an error response (no token issued). -/
theorem signup_validation_rejects (store : Store) (nextId now : Nat)
    (req : SignupReq)
    (h : req.fullName = "" ∨ req.username = "" ∨ req.email = "" ∨
      req.password = "" ∨ req.password.length < 6) :
    ∃ msg, signup store nextId now req = (.err 400 msg, store) ∧
      (msg = "All fields are required" ∨
        msg = "Password must be at least 6 characters long") := by
  by_cases h1 : req.fullName = "" ∨ req.username = "" ∨ req.email = "" ∨
    req.password = ""
  · exact ⟨_, by simp [signup, h1], Or.inl rfl⟩
  · have h2 : req.password.length < 6 := by tauto
    exact ⟨_, by simp [signup, h1, h2], Or.inr rfl⟩

/-- Witness for C3: a signup with a 5-character password is rejected with a
400 validation error and creates nothing. -/
theorem signup_validation_rejects_witness :
    ∃ msg, signup [] 1 0 ⟨"Jane Doe", "janedoe", "jane@x.com", "abc12"⟩ =
        (.err 400 msg, []) ∧
      (msg = "All fields are required" ∨
        msg = "Password must be at least 6 characters long") :=
  signup_validation_rejects [] 1 0 ⟨"Jane Doe", "janedoe", "jane@x.com", "abc12"⟩
    (by decide)

/-- C1: when the (setter-normalized) signup email or username exactly matches
a stored record, signup fails with status 400: `Email already registered`
when the record found by the lookup has the matching email — taking
precedence when both fields collide — and otherwise `Username already
taken`; the store is unchanged. -/
theorem signup_duplicate_precedence (store : Store) (nextId now : Nat)
    (req : SignupReq)
    (hv : ¬(req.fullName = "" ∨ req.username = "" ∨ req.email = "" ∨
      req.password = ""))
    (hlen : ¬ req.password.length < 6)
    (hnu : fieldSetter req.username = req.username)
    (hne : fieldSetter req.email = req.email)
    (r : UserRecord) (hr : r ∈ store)
    (hm : r.email = req.email ∨ r.username = req.username) :
    ∃ ex, store.find? (signupFilter req) = some ex ∧
      (ex.email = req.email ∨ ex.username = req.username) ∧
      signup store nextId now req =
        ((if ex.email = req.email then .err 400 "Email already registered"
          else .err 400 "Username already taken"), store) := by
  have hfind : (store.find? (signupFilter req)).isSome := by
    rw [List.find?_isSome]
    refine ⟨r, hr, ?_⟩
    simp only [signupFilter, hnu, hne, Bool.or_eq_true, beq_iff_eq]
    exact hm
  obtain ⟨ex, hex⟩ := Option.isSome_iff_exists.mp hfind
  have hpex := List.find?_some hex
  simp only [signupFilter, hnu, hne, Bool.or_eq_true, beq_iff_eq] at hpex
  refine ⟨ex, hex, hpex, ?_⟩
  by_cases he : ex.email = req.email
  · simp [signup, hv, hlen, hex, he]
  · have hu : ex.username = req.username := hpex.resolve_left he
    simp [signup, hv, hlen, hex, he, hu]

/-- Witness for C1: signing up with an email already stored (different
username) fails with `Email already registered`. -/
theorem signup_duplicate_precedence_witness :
    ∃ ex, [janeRecord].find?
        (signupFilter ⟨"Ann", "annuser", "jane@x.com", "secret2"⟩) = some ex ∧
      (ex.email = "jane@x.com" ∨ ex.username = "annuser") ∧
      signup [janeRecord] 2 5 ⟨"Ann", "annuser", "jane@x.com", "secret2"⟩ =
        ((if ex.email = "jane@x.com" then .err 400 "Email already registered"
          else .err 400 "Username already taken"), [janeRecord]) :=
  signup_duplicate_precedence [janeRecord] 2 5
    ⟨"Ann", "annuser", "jane@x.com", "secret2"⟩
    (by decide) (by decide) (by decide) (by decide) janeRecord
    (by decide) (by decide)

/-- C2 counterexample: signing up with `JANE@X.COM` while `jane@x.com` is
stored (a duplicate differing only by case) is NOT rejected with a duplicate
error: the handler falls through and the caller receives the generic 500
error from the unique-index violation. -/
theorem signup_case_duplicate_counterexample :
    signup [janeRecord] 2 5 ⟨"Ann", "annuser", "JANE@X.COM", "secret2"⟩ =
      (.err 500 "Internal server error. Please try again.", [janeRecord]) ∧
    (signup [janeRecord] 2 5 ⟨"Ann", "annuser", "JANE@X.COM", "secret2"⟩).1 ≠
      .err 400 "Email already registered" ∧
    (signup [janeRecord] 2 5 ⟨"Ann", "annuser", "JANE@X.COM", "secret2"⟩).1 ≠
      .err 400 "Username already taken" := by
  refine ⟨by decide, by decide, by decide⟩

/-- C2 amended: the existence lookup itself is case-insensitive (the query
values pass through the schema lowercase/trim setters), so a case-differing
duplicate is found; but the duplicate-error branches compare the stored
normalized values against the raw submitted values, so when neither matches
exactly the handler falls through to `save()`, the unique index rejects the
document, and the response is the generic 500 error, not the duplicate
error; the store is unchanged. -/
theorem signup_case_insensitive_lookup_generic_error (store : Store)
    (nextId now : Nat) (req : SignupReq)
    (hv : ¬(req.fullName = "" ∨ req.username = "" ∨ req.email = "" ∨
      req.password = ""))
    (hlen : ¬ req.password.length < 6)
    (ex : UserRecord) (hex : store.find? (signupFilter req) = some ex)
    (hee : ex.email ≠ req.email) (heu : ex.username ≠ req.username) :
    signup store nextId now req =
      (.err 500 "Internal server error. Please try again.", store) := by
  have hpex := List.find?_some hex
  have hmem := List.mem_of_find?_eq_some hex
  simp only [signupFilter, Bool.or_eq_true, beq_iff_eq] at hpex
  have hany : store.any (fun r =>
      r.username == fieldSetter req.username ||
      r.email == fieldSetter req.email) = true := by
    rw [List.any_eq_true]
    refine ⟨ex, hmem, ?_⟩
    simp only [Bool.or_eq_true, beq_iff_eq]
    tauto
  simp [signup, hv, hlen, hex, hee, heu, mkUserDoc, hany]

/-- Witness for the amended C2: the case-differing duplicate signup is found
by the lookup yet answered with the generic 500 error. -/
theorem signup_case_insensitive_lookup_generic_error_witness :
    signup [janeRecord] 2 5 ⟨"Ann", "annuser", "JANE@X.COM", "secret2"⟩ =
      (.err 500 "Internal server error. Please try again.", [janeRecord]) :=
  signup_case_insensitive_lookup_generic_error [janeRecord] 2 5
    ⟨"Ann", "annuser", "JANE@X.COM", "secret2"⟩
    (by decide) (by decide) janeRecord (by decide) (by decide) (by decide)

/-- C4: the login failure for an unknown identifier and the failure for a
known identifier with a wrong password are the very same observable
response: status 400, message `Invalid credentials`. -/
theorem login_failure_indistinguishable (store : Store) (now : Nat)
    (req : LoginReq) (h1 : req.emailOrUsername ≠ "") (h2 : req.password ≠ "") :
    (store.find? (loginFilter req) = none →
      login store now req = .err 400 "Invalid credentials") ∧
    (∀ u, store.find? (loginFilter req) = some u →
      bcryptCompare req.password u.password = false →
      login store now req = .err 400 "Invalid credentials") := by
  constructor
  · intro hf
    simp [login, h1, h2, hf]
  · intro u hf hc
    simp [login, h1, h2, hf, hc]

/-- Witness for C4: a nonexistent identifier and a wrong password for an
existing user produce the identical response. -/
theorem login_failure_indistinguishable_witness :
    login [janeRecord] 7 ⟨"nobody", "secret1"⟩ =
      .err 400 "Invalid credentials" ∧
    login [janeRecord] 7 ⟨"janedoe", "wrongpw"⟩ =
      .err 400 "Invalid credentials" :=
  ⟨(login_failure_indistinguishable [janeRecord] 7 ⟨"nobody", "secret1"⟩
      (by decide) (by decide)).1 (by decide),
   (login_failure_indistinguishable [janeRecord] 7 ⟨"janedoe", "wrongpw"⟩
      (by decide) (by decide)).2 janeRecord (by decide) (by decide)⟩

/-- C5: for a stored user that is the unique match of the lowercased
identifier (whether it is the user's email or username, in any letter case),
login with the stored password succeeds, while any differing password —
including one differing only in case — is rejected with
`Invalid credentials`. -/
theorem login_identifier_case_password_exact (store : Store) (now : Nat)
    (u : UserRecord) (i pw : String) (hi : i ≠ "") (hpw : pw ≠ "")
    (hu : u ∈ store)
    (hkey : u.email = fieldSetter (strLower i) ∨
      u.username = fieldSetter (strLower i))
    (huniq : ∀ v ∈ store,
      (v.email = fieldSetter (strLower i) ∨
        v.username = fieldSetter (strLower i)) → v = u)
    (hstored : u.password = bcryptHash 12 pw) :
    login store now ⟨i, pw⟩ =
      .ok 200 (some "Login successful!")
        (some (signToken u.id u.username u.email now))
        [("id", .num u.id), ("fullName", .str u.fullName),
         ("username", .str u.username), ("email", .str u.email)] ∧
    (∀ pw', pw' ≠ pw → pw' ≠ "" →
      login store now ⟨i, pw'⟩ = .err 400 "Invalid credentials") := by
  have hfilt : ∀ pw0 : String, store.find? (loginFilter ⟨i, pw0⟩) = some u := by
    intro pw0
    apply find?_eq_some_of_unique hu
    · simp only [loginFilter, Bool.or_eq_true, beq_iff_eq]
      exact hkey
    · intro v hv hpv
      simp only [loginFilter, Bool.or_eq_true, beq_iff_eq] at hpv
      exact huniq v hv hpv
  constructor
  · simp [login, hi, hpw, hfilt pw, hstored]
  · intro pw' hne hpw'
    have hcmp := bcryptCompare_wrong hne
    simp [login, hi, hpw', hfilt pw', hstored, hcmp]

/-- Witness for C5: `JANEDOE` logs Jane in with the right password and is
rejected when the password differs only by case. -/
theorem login_identifier_case_password_exact_witness :
    login [janeRecord] 7 ⟨"JANEDOE", "secret1"⟩ =
      .ok 200 (some "Login successful!")
        (some (signToken 1 "janedoe" "jane@x.com" 7))
        [("id", .num 1), ("fullName", .str "Jane Doe"),
         ("username", .str "janedoe"), ("email", .str "jane@x.com")] ∧
    login [janeRecord] 7 ⟨"JANEDOE", "SECRET1"⟩ =
      .err 400 "Invalid credentials" :=
  have h := login_identifier_case_password_exact [janeRecord] 7 janeRecord
    "JANEDOE" "secret1" (by decide) (by decide) (by decide) (by decide)
    (by decide) (by decide)
  ⟨h.1, h.2 "SECRET1" (by decide) (by decide)⟩

/-- Evaluating the middleware on a well-formed `Bearer` header reduces to
`jwt.verify` on the token. -/
theorem authenticateToken_bearer (s : String) (now : Nat)
    (hs : ∀ c ∈ s.data, c ≠ ' ') (hne : s ≠ "") :
    authenticateToken (some ("Bearer " ++ s)) now =
      match verifyToken s now with
      | none => .err 403 "Invalid or expired token"
      | some u => .proceed u := by
  have hB : ("Bearer" : String) ++ " " ++ s = "Bearer " ++ s := by
    apply congrArg String.mk
    simp [String.data_append]
  have h2 := extract_second_segment "Bearer" s (by decide) hs
  rw [hB] at h2
  simp only [authenticateToken, extractToken, h2]
  rw [if_neg hne]

/-- C6: a token issued at time `T` embeds exactly the user's claims plus
`iat = T` and `exp = T + 7 days`; the middleware accepts it at `T + 6 days`
and rejects it with 403 at `T + 8 days`; and every token issued by signup or
login is such a `signToken` for the stored user's identity at issuance
time. -/
theorem token_seven_day_validity (uid : Nat) (un em : String) (T : Nat) :
    decodeToken (signToken uid un em T) =
      some ⟨uid, un, em, T, T + 604800, jwtSecret⟩ ∧
    authenticateToken (some ("Bearer " ++ signToken uid un em T))
      (T + 6 * 86400) = .proceed ⟨uid, un, em⟩ ∧
    authenticateToken (some ("Bearer " ++ signToken uid un em T))
      (T + 8 * 86400) = .err 403 "Invalid or expired token" ∧
    (∀ (store : Store) (nextId now : Nat) (req : SignupReq) (st : Nat)
        (m : Option String) (tok : Option String)
        (user : List (String × JVal)) (s' : Store),
      signup store nextId now req = (.ok st m tok user, s') →
      tok = some (signToken nextId (fieldSetter req.username)
        (fieldSetter req.email) now)) ∧
    (∀ (store : Store) (now : Nat) (req : LoginReq) (st : Nat)
        (m : Option String) (tok : Option String)
        (user : List (String × JVal)),
      login store now req = .ok st m tok user →
      ∃ v ∈ store, tok = some (signToken v.id v.username v.email now)) := by
  have hs := encodeToken_no_space ⟨uid, un, em, T, T + 604800, jwtSecret⟩
  have hne := encodeToken_ne_empty ⟨uid, un, em, T, T + 604800, jwtSecret⟩
  have hdec : decodeToken (signToken uid un em T) =
      some ⟨uid, un, em, T, T + 604800, jwtSecret⟩ :=
    decodeToken_encodeToken _
  refine ⟨hdec, ?_, ?_, ?_, ?_⟩
  · rw [show signToken uid un em T =
      encodeToken ⟨uid, un, em, T, T + 604800, jwtSecret⟩ from rfl,
      authenticateToken_bearer _ _ hs hne]
    have hlt : T + 6 * 86400 < T + 604800 := by omega
    simp [verifyToken, decodeToken_encodeToken, hlt]
  · rw [show signToken uid un em T =
      encodeToken ⟨uid, un, em, T, T + 604800, jwtSecret⟩ from rfl,
      authenticateToken_bearer _ _ hs hne]
    have hlt : ¬ T + 8 * 86400 < T + 604800 := by omega
    simp [verifyToken, decodeToken_encodeToken, hlt]
  · intro store nextId now req st m tok user s' h
    by_cases hA : req.fullName = "" ∨ req.username = "" ∨ req.email = "" ∨
      req.password = ""
    · simp [signup, hA] at h
    · by_cases hB : req.password.length < 6
      · simp [signup, hA, hB] at h
      · rcases hf : store.find? (signupFilter req) with - | ex
        · by_cases hany : store.any (fun r =>
              r.username == fieldSetter req.username ||
              r.email == fieldSetter req.email) = true
          · simp [signup, hA, hB, hf, mkUserDoc, hany] at h
          · simp [signup, hA, hB, hf, mkUserDoc, hany] at h
            exact h.1.2.2.1.symm
        · by_cases he : ex.email = req.email
          · simp [signup, hA, hB, hf, he] at h
          · by_cases hu2 : ex.username = req.username
            · simp [signup, hA, hB, hf, he, hu2] at h
            · by_cases hany : store.any (fun r =>
                  r.username == fieldSetter req.username ||
                  r.email == fieldSetter req.email) = true
              · simp [signup, hA, hB, hf, he, hu2, mkUserDoc, hany] at h
              · simp [signup, hA, hB, hf, he, hu2, mkUserDoc, hany] at h
                exact h.1.2.2.1.symm
  · intro store now req st m tok user h
    by_cases hA : req.emailOrUsername = "" ∨ req.password = ""
    · simp [login, hA] at h
    · rcases hf : store.find? (loginFilter req) with - | v
      · simp [login, hA, hf] at h
      · by_cases hc : bcryptCompare req.password v.password = true
        · refine ⟨v, List.mem_of_find?_eq_some hf, ?_⟩
          simp [login, hA, hf, hc] at h
          exact h.2.2.1.symm
        · simp [login, hA, hf, hc] at h

/-- Witness for C6: Jane's token decodes to her claims with a 7-day expiry,
is accepted 6 days in, rejected 8 days in, and the signup/login issuance
conjuncts hold at concrete calls. -/
theorem token_seven_day_validity_witness :
    decodeToken (signToken 1 "janedoe" "jane@x.com" 0) =
      some ⟨1, "janedoe", "jane@x.com", 0, 604800, jwtSecret⟩ ∧
    authenticateToken (some ("Bearer " ++ signToken 1 "janedoe" "jane@x.com" 0))
      (0 + 6 * 86400) = .proceed ⟨1, "janedoe", "jane@x.com"⟩ ∧
    authenticateToken (some ("Bearer " ++ signToken 1 "janedoe" "jane@x.com" 0))
      (0 + 8 * 86400) = .err 403 "Invalid or expired token" ∧
    (some (signToken 2 "janedoe" "jane@x.com" 0) : Option String) =
      some (signToken 2 (fieldSetter "janedoe") (fieldSetter "jane@x.com") 0) ∧
    ∃ v ∈ [janeRecord],
      (some (signToken 1 "janedoe" "jane@x.com" 7) : Option String) =
        some (signToken v.id v.username v.email 7) :=
  have h := token_seven_day_validity 1 "janedoe" "jane@x.com" 0
  ⟨h.1, h.2.1, h.2.2.1,
   h.2.2.2.1 [] 2 0 ⟨"Jane Doe", "janedoe", "jane@x.com", "secret1"⟩ 201
     (some "Account created successfully!")
     (some (signToken 2 "janedoe" "jane@x.com" 0))
     [("id", .num 2), ("fullName", .str "Jane Doe"),
      ("username", .str "janedoe"), ("email", .str "jane@x.com")]
     [mkUserDoc 2 0 ⟨"Jane Doe", "janedoe", "jane@x.com", "secret1"⟩]
     (by decide),
   h.2.2.2.2 [janeRecord] 7 ⟨"janedoe", "secret1"⟩ 200
     (some "Login successful!")
     (some (signToken 1 "janedoe" "jane@x.com" 7))
     [("id", .num 1), ("fullName", .str "Jane Doe"),
      ("username", .str "janedoe"), ("email", .str "jane@x.com")]
     (by decide)⟩

/-- C7: each request hits exactly one of three outcomes — 401 when no token
was extracted (header absent, or `split(' ')[1]` missing or empty), 403 when
a token is present but `jwt.verify` rejects it (malformed, wrong secret, or
expired), and proceed-with-claims when it verifies — and the 401 and 403
responses are distinct observables. -/
theorem authenticateToken_trichotomy (hdr : Option String) (now : Nat) :
    (((extractToken hdr = none ∨ extractToken hdr = some "") ∧
      authenticateToken hdr now = .err 401 "Access token required") ∨
     (∃ t, extractToken hdr = some t ∧ t ≠ "" ∧ verifyToken t now = none ∧
      authenticateToken hdr now = .err 403 "Invalid or expired token") ∨
     (∃ t u, extractToken hdr = some t ∧ t ≠ "" ∧ verifyToken t now = some u ∧
      authenticateToken hdr now = .proceed u)) ∧
    (AuthOutcome.err 401 "Access token required" ≠
      AuthOutcome.err 403 "Invalid or expired token") := by
  refine ⟨?_, by decide⟩
  rcases he : extractToken hdr with - | t
  · exact Or.inl ⟨Or.inl rfl, by simp [authenticateToken, he]⟩
  · by_cases ht : t = ""
    · subst ht
      exact Or.inl ⟨Or.inr rfl, by simp [authenticateToken, he]⟩
    · rcases hv : verifyToken t now with - | u
      · exact Or.inr (Or.inl ⟨t, rfl, ht, hv,
          by simp [authenticateToken, he, ht, hv]⟩)
      · exact Or.inr (Or.inr ⟨t, u, rfl, ht, hv,
          by simp [authenticateToken, he, ht, hv]⟩)

/-- A signup either leaves the store unchanged or appends exactly the
normalized, hashed document. -/
theorem signup_snd_cases (store : Store) (nid now : Nat) (req : SignupReq) :
    (signup store nid now req).2 = store ∨
    (signup store nid now req).2 = store ++ [mkUserDoc nid now req] := by
  by_cases hA : req.fullName = "" ∨ req.username = "" ∨ req.email = "" ∨
    req.password = ""
  · simp [signup, hA]
  · by_cases hB : req.password.length < 6
    · simp [signup, hA, hB]
    · rcases hf : store.find? (signupFilter req) with - | ex
      · by_cases hany : store.any (fun r =>
            r.username == (mkUserDoc nid now req).username ||
            r.email == (mkUserDoc nid now req).email) = true
        · simp [signup, hA, hB, hf, hany]
        · simp [signup, hA, hB, hf, hany]
      · by_cases he : ex.email = req.email
        · simp [signup, hA, hB, hf, he]
        · by_cases hu2 : ex.username = req.username
          · simp [signup, hA, hB, hf, he, hu2]
          · by_cases hany : store.any (fun r =>
                r.username == (mkUserDoc nid now req).username ||
                r.email == (mkUserDoc nid now req).email) = true
            · simp [signup, hA, hB, hf, he, hu2, hany]
            · simp [signup, hA, hB, hf, he, hu2, hany]

/-- One signup step preserves the record-shape invariant. -/
theorem storeWF_signup {store : Store} (h : storeWF store) (nid now : Nat)
    (req : SignupReq) : storeWF (signup store nid now req).2 := by
  rcases signup_snd_cases store nid now req with hc | hc
  · rw [hc]; exact h
  · rw [hc]
    intro r hr
    rcases List.mem_append.mp hr with hm | hm
    · exact h r hm
    · have hrm : r = mkUserDoc nid now req := by simpa using hm
      subst hrm
      exact ⟨req.fullName, req.username, req.email, req.password, nid, now,
        rfl, bcryptHash_ne_plain 12 req.password⟩

/-- Running any signup sequence preserves the invariant. -/
theorem storeWF_runSignups :
    ∀ (ops : List (Nat × Nat × SignupReq)) (store : Store),
      storeWF store → storeWF (runSignups store ops)
  | [], _, h => h
  | (_, _, _) :: rest, _, h =>
      storeWF_runSignups rest _ (storeWF_signup h _ _ _)

/-- C8: in every store reachable by signups from the empty store — signup
being the only record-creating operation — every record holds only the
bcrypt hash of the submitted password (never the plaintext), a trimmed
`fullName`, and lowercased (setter-normalized) `username` and `email`. -/
theorem signup_reachable_stores_hashed (ops : List (Nat × Nat × SignupReq)) :
    storeWF (runSignups [] ops) :=
  storeWF_runSignups ops [] (by intro r hr; simp at hr)

/-- Witness for C8: the record created by a concrete signup has the
normalized, hashed shape and does not store the plaintext. -/
theorem signup_reachable_stores_hashed_witness :
    ∃ fn un em pw idv t,
      mkUserDoc 1 0 ⟨"Jane Doe", "janedoe", "jane@x.com", "secret1"⟩ =
        { id := idv, fullName := strTrim fn, username := fieldSetter un,
          email := fieldSetter em, password := bcryptHash 12 pw,
          createdAt := t } ∧
      (mkUserDoc 1 0 ⟨"Jane Doe", "janedoe", "jane@x.com", "secret1"⟩).password
        ≠ pw :=
  signup_reachable_stores_hashed
    [(1, 0, ⟨"Jane Doe", "janedoe", "jane@x.com", "secret1"⟩)]
    (mkUserDoc 1 0 ⟨"Jane Doe", "janedoe", "jane@x.com", "secret1"⟩)
    (by decide)

/-- C9: every `user` object returned by signup, login or profile carries only
the keys `id`, `fullName`, `username`, `email` (plus `createdAt` for
profile) — never a password key; the profile view includes `createdAt`; and
profile answers 404 `User not found` when no record has the requested id. -/
theorem user_views_exclude_password (store : Store) :
    (∀ (nextId now : Nat) (req : SignupReq) (st : Nat)
        (m tok : Option String) (user : List (String × JVal)) (s' : Store),
      signup store nextId now req = (.ok st m tok user, s') →
      "password" ∉ user.map Prod.fst ∧
        user.map Prod.fst = ["id", "fullName", "username", "email"]) ∧
    (∀ (now : Nat) (req : LoginReq) (st : Nat) (m tok : Option String)
        (user : List (String × JVal)),
      login store now req = .ok st m tok user →
      "password" ∉ user.map Prod.fst ∧
        user.map Prod.fst = ["id", "fullName", "username", "email"]) ∧
    (∀ (uid st : Nat) (m tok : Option String) (user : List (String × JVal)),
      getProfile store uid = .ok st m tok user →
      "password" ∉ user.map Prod.fst ∧
        user.map Prod.fst = ["id", "fullName", "username", "email",
          "createdAt"] ∧
        ∃ v ∈ store, v.id = uid ∧ ("createdAt", JVal.num v.createdAt) ∈ user) ∧
    (∀ uid : Nat, store.find? (fun r => r.id == uid) = none →
      getProfile store uid = .err 404 "User not found") := by
  refine ⟨?_, ?_, ?_, ?_⟩
  · intro nextId now req st m tok user s' h
    by_cases hA : req.fullName = "" ∨ req.username = "" ∨ req.email = "" ∨
      req.password = ""
    · simp [signup, hA] at h
    · by_cases hB : req.password.length < 6
      · simp [signup, hA, hB] at h
      · rcases hf : store.find? (signupFilter req) with - | ex
        · by_cases hany : store.any (fun r =>
              r.username == (mkUserDoc nextId now req).username ||
              r.email == (mkUserDoc nextId now req).email) = true
          · simp [signup, hA, hB, hf, hany] at h
          · simp [signup, hA, hB, hf, hany] at h
            rw [← h.1.2.2.2]
            constructor <;> simp
        · by_cases he : ex.email = req.email
          · simp [signup, hA, hB, hf, he] at h
          · by_cases hu2 : ex.username = req.username
            · simp [signup, hA, hB, hf, he, hu2] at h
            · by_cases hany : store.any (fun r =>
                  r.username == (mkUserDoc nextId now req).username ||
                  r.email == (mkUserDoc nextId now req).email) = true
              · simp [signup, hA, hB, hf, he, hu2, hany] at h
              · simp [signup, hA, hB, hf, he, hu2, hany] at h
                rw [← h.1.2.2.2]
                constructor <;> simp
  · intro now req st m tok user h
    by_cases hA : req.emailOrUsername = "" ∨ req.password = ""
    · simp [login, hA] at h
    · rcases hf : store.find? (loginFilter req) with - | v
      · simp [login, hA, hf] at h
      · by_cases hc : bcryptCompare req.password v.password = true
        · simp [login, hA, hf, hc] at h
          rw [← h.2.2.2]
          constructor <;> simp
        · simp [login, hA, hf, hc] at h
  · intro uid st m tok user h
    rcases hf : store.find? (fun r => r.id == uid) with - | v
    · simp [getProfile, hf] at h
    · simp [getProfile, hf] at h
      have hid : v.id = uid := by
        have := List.find?_some hf
        simpa using this
      refine ⟨?_, ?_, v, List.mem_of_find?_eq_some hf, hid, ?_⟩
      · rw [← h.2.2.2]; simp
      · rw [← h.2.2.2]; simp
      · rw [← h.2.2.2]; simp
  · intro uid hf
    simp [getProfile, hf]

/-- Witness for C9: concrete signup, login and profile calls all return
password-free views, and profile includes `createdAt` and 404s on a missing
id. -/
theorem user_views_exclude_password_witness :
    ("password" ∉ ([("id", JVal.num 2), ("fullName", JVal.str "Ann Lee"),
        ("username", JVal.str "annlee"),
        ("email", JVal.str "ann@x.com")]).map Prod.fst ∧
      ([("id", JVal.num 2), ("fullName", JVal.str "Ann Lee"),
        ("username", JVal.str "annlee"),
        ("email", JVal.str "ann@x.com")]).map Prod.fst =
        ["id", "fullName", "username", "email"]) ∧
    ("password" ∉ ([("id", JVal.num 1), ("fullName", JVal.str "Jane Doe"),
        ("username", JVal.str "janedoe"), ("email", JVal.str "jane@x.com"),
        ("createdAt", JVal.num 0)]).map Prod.fst ∧
      ([("id", JVal.num 1), ("fullName", JVal.str "Jane Doe"),
        ("username", JVal.str "janedoe"), ("email", JVal.str "jane@x.com"),
        ("createdAt", JVal.num 0)]).map Prod.fst =
        ["id", "fullName", "username", "email", "createdAt"] ∧
      ∃ v ∈ [janeRecord], v.id = 1 ∧
        ("createdAt", JVal.num v.createdAt) ∈
          [("id", JVal.num 1), ("fullName", JVal.str "Jane Doe"),
           ("username", JVal.str "janedoe"), ("email", JVal.str "jane@x.com"),
           ("createdAt", JVal.num 0)]) ∧
    getProfile [janeRecord] 2 = .err 404 "User not found" :=
  have h := user_views_exclude_password [janeRecord]
  ⟨h.1 2 0 ⟨"Ann Lee", "annlee", "ann@x.com", "secret2"⟩ 201
      (some "Account created successfully!")
      (some (signToken 2 "annlee" "ann@x.com" 0))
      [("id", JVal.num 2), ("fullName", JVal.str "Ann Lee"),
       ("username", JVal.str "annlee"), ("email", JVal.str "ann@x.com")]
      ([janeRecord] ++ [mkUserDoc 2 0 ⟨"Ann Lee", "annlee", "ann@x.com",
        "secret2"⟩])
      (by decide),
   h.2.2.1 1 200 none none
      [("id", JVal.num 1), ("fullName", JVal.str "Jane Doe"),
       ("username", JVal.str "janedoe"), ("email", JVal.str "jane@x.com"),
       ("createdAt", JVal.num 0)]
      (by decide),
   h.2.2.2 2 (by decide)⟩

/-- C10 counterexample: a header of the form `<anything> <valid-token>` with
`anything = "A B"` is NOT accepted the way `Bearer <valid-token>` is:
`split(' ')[1]` yields `B`, which fails verification, so the middleware
answers 403 while the `Bearer` header proceeds. -/
theorem authenticateToken_scheme_counterexample :
    authenticateToken
        (some ("Bearer " ++ signToken 1 "janedoe" "jane@x.com" 0)) 0 =
      .proceed ⟨1, "janedoe", "jane@x.com"⟩ ∧
    authenticateToken
        (some ("A B " ++ signToken 1 "janedoe" "jane@x.com" 0)) 0 =
      .err 403 "Invalid or expired token" :=
  ⟨by decide, by decide⟩

/-- C10 amended: the middleware never validates the scheme word — the token
is the segment between the first and second space, so any header
`<space-free word> <valid-token>` behaves exactly like
`Bearer <valid-token>`; and any header containing no space at all (a bare
token, or `Bearer` alone) yields 401 Unauthorized, not 403. -/
theorem authenticateToken_scheme_word_ignored (w s h : String) (now : Nat)
    (hw : ∀ c ∈ w.data, c ≠ ' ') (hs : ∀ c ∈ s.data, c ≠ ' ')
    (hh : ∀ c ∈ h.data, c ≠ ' ') :
    authenticateToken (some (w ++ " " ++ s)) now =
      authenticateToken (some ("Bearer " ++ s)) now ∧
    authenticateToken (some h) now = .err 401 "Access token required" :=
  ⟨authenticateToken_scheme_irrelevant w s now hw hs,
   authenticateToken_no_space h now hh⟩

/-- Witness for the amended C10: `Token <jwt>` behaves like `Bearer <jwt>`,
and a bare valid token without any scheme word yields 401. -/
theorem authenticateToken_scheme_word_ignored_witness :
    authenticateToken
        (some ("Token" ++ " " ++ signToken 1 "janedoe" "jane@x.com" 0)) 0 =
      authenticateToken
        (some ("Bearer " ++ signToken 1 "janedoe" "jane@x.com" 0)) 0 ∧
    authenticateToken (some (signToken 1 "janedoe" "jane@x.com" 0)) 0 =
      .err 401 "Access token required" :=
  authenticateToken_scheme_word_ignored "Token"
    (signToken 1 "janedoe" "jane@x.com" 0)
    (signToken 1 "janedoe" "jane@x.com" 0) 0
    (by decide) (by decide) (by decide)
